import Mathlib

/-!
Verification of the WCM revenue agent's query-safety core (`wcm_agent/safety.py`,
`wcm_agent/formatters.py`, `wcm_agent/agent.py`) against its specification.

Strings are modelled as `List Char` (ASCII fragment of Python `str`); regular
expressions from the source are translated into explicit recursive scanners.
-/

namespace WCM

abbrev Str := List Char

/-- Word character in the sense of the regex `\b` boundary: `[A-Za-z0-9_]`. -/
def isWordChar (c : Char) : Bool := c.isAlphanum || c == '_'

/-- Python `str` / regex `\s` whitespace (ASCII fragment). -/
def pyIsSpace (c : Char) : Bool :=
  c == ' ' || c == '\t' || c == '\n' || c == '\r' || c == '\x0b' || c == '\x0c'

/-- Python `lstrip()` on the ASCII whitespace set. -/
def lstripWS (s : Str) : Str := s.dropWhile pyIsSpace

/-- Strip trailing characters satisfying `p` (Python `rstrip` with a char set). -/
def rstripBy (p : Char → Bool) (s : Str) : Str := s.rdropWhile p

/-- Python `str.strip()` (ASCII whitespace). -/
def pyStrip (s : Str) : Str := rstripBy pyIsSpace (lstripWS s)

/-- `re.sub(r"--.*$", "", sql, flags=re.MULTILINE)`: on each line, truncate at
the first `--`.  The newline itself is kept (`.` does not match `\n`).
The flag records whether the scanner is inside a line comment. -/
def stripLineCommentsAux : Bool → Str → Str
  | _, [] => []
  | true, c :: rest =>
    if c == '\n' then '\n' :: stripLineCommentsAux false rest
    else stripLineCommentsAux true rest
  | false, '-' :: '-' :: rest => stripLineCommentsAux true rest
  | false, c :: rest => c :: stripLineCommentsAux false rest

def stripLineComments (s : Str) : Str := stripLineCommentsAux false s

/-- The string contains the closing delimiter `*/`. -/
def hasClose : Str → Bool
  | [] => false
  | [_] => false
  | a :: b :: rest => (a == '*' && b == '/') || hasClose (b :: rest)

/-- `re.sub(r"/\*.*?\*/", "", s, flags=re.DOTALL)`: remove each `/*` together
with everything up to the nearest following `*/` (non-greedy, spans newlines);
an unclosed `/*` is left in place, and then nothing after it can match.
The flag records whether the scanner is inside a block comment. -/
def stripBlockCommentsAux : Bool → Str → Str
  | _, [] => []
  | true, '*' :: '/' :: rest => stripBlockCommentsAux false rest
  | true, _ :: rest => stripBlockCommentsAux true rest
  | false, '/' :: '*' :: rest =>
    if hasClose rest then stripBlockCommentsAux true rest else '/' :: '*' :: rest
  | false, c :: rest => c :: stripBlockCommentsAux false rest

def stripBlockComments (s : Str) : Str := stripBlockCommentsAux false s

/-- `validate_sql`'s comment stripping followed by `.strip()`. -/
def cleanedSql (sql : Str) : Str := pyStrip (stripBlockComments (stripLineComments sql))

/-- `cleaned.upper().startswith("SELECT")`. -/
def startsWithSelect (s : Str) : Bool :=
  decide ((s.map Char.toUpper).take 6 = "SELECT".data)

def isWordCharOpt : Option Char → Bool
  | none => false
  | some c => isWordChar c

/-- The regex `\bKW\b` (with `KW` already lowercased) matches at index `i` of `s`
under `re.IGNORECASE`. -/
def matchWordAt (kw s : Str) (i : Nat) : Bool :=
  decide (((s.drop i).take kw.length).map Char.toLower = kw)
  && (decide (i = 0) || !isWordCharOpt s[i-1]?)
  && !isWordCharOpt s[i + kw.length]?

/-- `re.search(rf"\b{kw}\b", s, re.IGNORECASE)` succeeds. -/
def containsWordCI (kw s : Str) : Bool :=
  (List.range (s.length + 1)).any (matchWordAt (kw.map Char.toLower) s)

/-- The blocklist of `validate_sql`, in source order. -/
def blockedKeywords : List Str :=
  ["DROP", "DELETE", "INSERT", "UPDATE",
   "ALTER", "CREATE", "TRUNCATE", "EXEC", "EXECUTE"].map String.data

def keywordMsg (kw : Str) : Str :=
  "Blocked: SQL contains '".data ++ kw ++ "' which is not allowed.".data

/-- `re.search(r";\s*\S", s)` succeeds: a semicolon followed, possibly after
whitespace, by a non-whitespace character. -/
def hasStmtAfterSemi : Str → Bool
  | [] => false
  | ';' :: rest => !(rest.dropWhile pyIsSpace).isEmpty || hasStmtAfterSemi rest
  | _ :: rest => hasStmtAfterSemi rest

/-- `wcm_agent/safety.py`, `validate_sql` (`cleanedSql` is the local
`cleaned`). -/
def validate_sql (sql : Str) : Bool × Str :=
  if !startsWithSelect (cleanedSql sql) then
    (false, "Blocked: Only SELECT queries are allowed.".data)
  else
    match blockedKeywords.find? (fun kw => containsWordCI kw (cleanedSql sql)) with
    | some kw => (false, keywordMsg kw)
    | none =>
      if hasStmtAfterSemi (cleanedSql sql) then
        (false, "Blocked: Multiple SQL statements are not allowed.".data)
      else
        (true, "OK".data)

def MAX_QUESTION_LENGTH : Nat := 500

/-- Character survives `re.sub(r"[\x00-\x08\x0b\x0c\x0e-\x1f\x7f]", "", ·)`. -/
def keepChar (c : Char) : Bool :=
  !((c.toNat ≤ 0x08) || c.toNat == 0x0b || c.toNat == 0x0c
    || (0x0e ≤ c.toNat && c.toNat ≤ 0x1f) || c.toNat == 0x7f)

/-- `wcm_agent/safety.py`, `sanitize_input` (on a present, non-null string;
`None` and `""` both take the early `return ""` which coincides with the
result on `[]`). -/
def sanitize_input (question : Str) : Str :=
  let cleaned := pyStrip (question.filter keepChar)
  cleaned.take MAX_QUESTION_LENGTH

def MAX_RESULT_ROWS : Nat := 1000

/-- Python `str(n)` for a natural number. -/
def natToStr (n : Nat) : Str := Nat.toDigits 10 n

/-- `wcm_agent/safety.py`, `enforce_limit`. -/
def enforce_limit (sql : Str) (maxRows : Nat) : Str :=
  if containsWordCI "LIMIT".data sql then sql
  else
    rstripBy (· == ';') (rstripBy pyIsSpace sql) ++ " LIMIT ".data ++ natToStr maxRows

/-- Python `str(n)` for an integer. -/
def intToStr (n : Int) : Str :=
  if n < 0 then '-' :: natToStr n.natAbs else natToStr n.natAbs

/-- A scalar cell value of a result row: SQLite hands back integers, reals,
text or NULL.  Reals are modelled as rationals. -/
inductive Value where
  | intV : Int → Value
  | floatV : ℚ → Value
  | strV : Str → Value
  | nullV : Value
deriving DecidableEq

/-- A result row: the ordered column-name/value pairs of `dict(zip(columns, row))`. -/
abbrev Row := List (Str × Value)

/-- Python `isinstance(value, (int, float))`. -/
def isNumericValue : Value → Bool
  | .intV _ => true
  | .floatV _ => true
  | _ => false

/-- Python `isinstance(v, float)`: the narrower test of the multi-row branch. -/
def isFloatValue : Value → Bool
  | .floatV _ => true
  | _ => false

def numToRat : Value → ℚ
  | .intV n => mkRat n 1
  | .floatV q => q
  | _ => 0

/-- Round `q * 100` to the nearest integer, ties to even (the rounding of
Python's fixed-point float formatting), computed on numerator and
denominator with floor division. -/
def roundHalfEvenCents (q : ℚ) : Int :=
  let n := q.num * 100
  let d := (q.den : Int)
  let f := n.fdiv d
  let r := n.fmod d
  if 2 * r < d then f
  else if d < 2 * r then f + 1
  else if f % 2 = 0 then f else f + 1

/-- Insert `,` after every third digit, scanning from the right. -/
def group3rev : Str → Str
  | a :: b :: c :: d :: rest => a :: b :: c :: ',' :: group3rev (d :: rest)
  | s => s

def groupDigits (ds : Str) : Str := (group3rev ds.reverse).reverse

def twoDigits (n : Nat) : Str := if n < 10 then '0' :: natToStr n else natToStr n

/-- Python `f"{v:,.2f}"`: thousands separators and exactly two decimal places. -/
def formatCommas2 (v : ℚ) : Str :=
  let cents := roundHalfEvenCents v
  let sign := if cents < 0 then "-".data else []
  sign ++ groupDigits (natToStr (cents.natAbs / 100)) ++ ".".data
    ++ twoDigits (cents.natAbs % 100)

/-- How many times `p` divides `n`, with the cofactor (fuel-bounded). -/
def stripFactorAux (p : Nat) : Nat → Nat → Nat × Nat
  | 0, n => (0, n)
  | fuel + 1, n =>
    if 2 ≤ p && n % p == 0 && 1 ≤ n / p then
      let r := stripFactorAux p fuel (n / p)
      (r.1 + 1, r.2)
    else (0, n)

def insertDot (ds : Str) (k : Nat) : Str :=
  let ds := if ds.length ≤ k then List.replicate (k + 1 - ds.length) '0' ++ ds else ds
  ds.take (ds.length - k) ++ ".".data ++ ds.drop (ds.length - k)

/-- Python `str(v)` for a float, on the dyadic rationals that reach this path:
the shortest exact decimal expansion (always terminating for binary doubles),
with at least one digit after the point. -/
def pyFloatRepr (q : ℚ) : Str :=
  let a := (stripFactorAux 2 q.den q.den).1
  let d1 := (stripFactorAux 2 q.den q.den).2
  let b := (stripFactorAux 5 d1 d1).1
  let d2 := (stripFactorAux 5 d1 d1).2
  if d2 == 1 then
    let k := max a b
    if k == 0 then intToStr q.num ++ ".0".data
    else
      let n := q.num * ((10 ^ k) / (q.den : Int))
      let sign := if n < 0 then "-".data else []
      sign ++ insertDot (natToStr n.natAbs) k
  else intToStr q.num ++ "/".data ++ natToStr q.den

/-- Python `f"{value}"` on a scalar. -/
def valuePlain : Value → Str
  | .intV n => intToStr n
  | .floatV q => pyFloatRepr q
  | .strV s => s
  | .nullV => "None".data

/-- One `column: value` field of the multi-row branch: floats get the currency
treatment, everything else renders plainly. -/
def renderField : Str × Value → Str
  | (k, Value.floatV q) => k ++ ": $".data ++ formatCommas2 q
  | (k, v) => k ++ ": ".data ++ valuePlain v

/-- One line of the multi-row branch: fields joined by `" | "`. -/
def renderRow (r : Row) : Str := List.intercalate " | ".data (r.map renderField)

/-- `wcm_agent/formatters.py`, `format_result_deterministic` (an absent/`None`
result set takes the same branch as the empty list). -/
def format_result_deterministic (question : Str) (rows : List Row) : Str :=
  if rows.isEmpty then "No results found.".data
  else if rows.length == 1 && (rows.headD []).length == 1 then
    let kv := (rows.headD []).headD ([], Value.nullV)
    if isNumericValue kv.2 then kv.1 ++ ": $".data ++ formatCommas2 (numToRat kv.2)
    else kv.1 ++ ": ".data ++ valuePlain kv.2
  else List.intercalate "\n".data (rows.map renderRow)

def MAX_RETRIES : Nat := 3

def INITIAL_BACKOFF_SECONDS : ℚ := 1

/-- `INITIAL_BACKOFF_SECONDS * (2 ** attempt)`: the delay slept after the
failed attempt with this zero-based index. -/
def backoffDelay (attempt : Nat) : ℚ := INITIAL_BACKOFF_SECONDS * 2 ^ attempt

/-- `wcm_agent/agent.py`, `_clean_sql_response`: strip markdown code fences. -/
def cleanSqlResponse (raw : Str) : Str :=
  let sql := pyStrip raw
  let sql :=
    if List.isPrefixOf "```".data sql then
      if sql.contains '\n' then (sql.dropWhile (fun c => !(c == '\n'))).drop 1
      else sql.drop 3
    else sql
  let sql := if List.isSuffixOf "```".data sql then sql.take (sql.length - 3) else sql
  pyStrip sql

/-- The external collaborators of `ask_database`: the `OPENAI_API_KEY`
environment variable, the completion service (one result per SQL-generation
attempt and per answer-formatting call; `Except.error` models a raised
exception), and the data connection (columns and rows, or a raised error). -/
structure Oracles where
  apiKey : Option Str
  gen : Nat → Except Str Str
  runQuery : Str → Except Str (List Str × List (List Value))
  fmtAnswer : Nat → Except Str Str

/-- Outcome of the SQL-generation retry loop: the (stripped) response of the
successful attempt if any, the last raised error, the sleeps performed
(in order), and the number of attempts made. -/
structure GenOutcome where
  sqlText : Option Str
  lastErr : Option Str
  sleeps : List ℚ
  calls : Nat

/-- The `for attempt in range(max_retries + 1)` loop of `ask_database`:
on success store the stripped response and break; on an exception remember it
and, unless this was the last attempt, sleep `backoffDelay attempt` and retry.
`fuel` is `maxR + 1 - attempt`, so the loop always has enough of it. -/
def genLoop (g : Nat → Except Str Str) (maxR : Nat) : Nat → Option Str → Nat → GenOutcome
  | _, lastErr, 0 => ⟨none, lastErr, [], 0⟩
  | attempt, lastErr, fuel + 1 =>
    match g attempt with
    | .ok content => ⟨some (pyStrip content), lastErr, [], 1⟩
    | .error e =>
      if attempt < maxR then
        let rest := genLoop g maxR (attempt + 1) (some e) fuel
        ⟨rest.sqlText, rest.lastErr, backoffDelay attempt :: rest.sleeps, rest.calls + 1⟩
      else ⟨none, some e, [], 1⟩

/-- What a call to `ask_database` did: the returned answer, the sleeps
performed, how many generation and formatting completion calls were made, and
the deterministic answer if the formatting stage was reached. -/
structure AskResult where
  answer : Str
  sleeps : List ℚ
  genCalls : Nat
  fmtCalls : Nat
  detAnswer : Option Str

/-- The tail of `ask_database` beginning at the safety validation of the
cleaned SQL (`generated_sql` after `_clean_sql_response`), with the
generation loop's outcome threaded through. -/
def askAfterGen (question : Str) (o : Oracles) (g : GenOutcome) (sql : Str) : AskResult :=
  if !(validate_sql sql).1 then
    ⟨"SAFETY ERROR: ".data ++ (validate_sql sql).2, g.sleeps, g.calls, 0, none⟩
  else
    match o.runQuery (enforce_limit sql MAX_RESULT_ROWS) with
    | .error e =>
      ⟨"SQL EXECUTION ERROR: ".data ++ e, g.sleeps, g.calls, 0, none⟩
    | .ok (cols, rows) =>
      if rows.isEmpty then
        ⟨"No results found.".data, g.sleeps, g.calls, 0, none⟩
      else
        match o.fmtAnswer 0 with
        | .ok content =>
          ⟨pyStrip content, g.sleeps, g.calls, 1,
            some (format_result_deterministic question (rows.map (fun r => cols.zip r)))⟩
        | .error _ =>
          ⟨format_result_deterministic question (rows.map (fun r => cols.zip r)),
            g.sleeps, g.calls, 1,
            some (format_result_deterministic question (rows.map (fun r => cols.zip r)))⟩

/-- `wcm_agent/agent.py`, `ask_database`. -/
def ask_database (question : Str) (o : Oracles) (maxRetries : Nat) : AskResult :=
  if (sanitize_input question).isEmpty then
    ⟨"ERROR: Empty question provided.".data, [], 0, 0, none⟩
  else
    match o.apiKey with
    | none =>
      ⟨"ERROR: OPENAI_API_KEY not set. Copy .env.example to .env and add your key.".data,
        [], 0, 0, none⟩
    | some key =>
      if key.isEmpty then
        ⟨"ERROR: OPENAI_API_KEY not set. Copy .env.example to .env and add your key.".data,
          [], 0, 0, none⟩
      else
        match (genLoop o.gen maxRetries 0 none (maxRetries + 1)).sqlText with
        | none =>
          ⟨"API ERROR: Could not generate SQL after ".data ++ natToStr (maxRetries + 1)
              ++ " attempts: ".data
              ++ (genLoop o.gen maxRetries 0 none (maxRetries + 1)).lastErr.getD [],
            (genLoop o.gen maxRetries 0 none (maxRetries + 1)).sleeps,
            (genLoop o.gen maxRetries 0 none (maxRetries + 1)).calls, 0, none⟩
        | some raw =>
          askAfterGen (sanitize_input question) o
            (genLoop o.gen maxRetries 0 none (maxRetries + 1)) (cleanSqlResponse raw)

/-- An ASCII control character: code points 0–31 and 127. -/
def isAsciiControl (c : Char) : Bool := c.toNat < 32 || c.toNat == 127

/-- The specification's reading of the whitelist step: the comment-stripped
text begins with `SELECT` as a whole token (word-boundary after it), stated
for comparison with the source's plain prefix test. -/
def specBeginsWithTokenSelect (s : Str) : Bool := matchWordAt "select".data s 0

/-- `pat` occurs as a contiguous substring of `s`. -/
def containsSubstring (pat s : Str) : Bool :=
  (List.range (s.length + 1)).any (fun i => List.isPrefixOf pat (s.drop i))

/-- The answer is a tagged error string: it starts with one of the four error
prefixes of the specification. -/
def errTagged (s : Str) : Bool :=
  List.isPrefixOf "ERROR:".data s || List.isPrefixOf "SAFETY ERROR:".data s
    || List.isPrefixOf "SQL EXECUTION ERROR:".data s
    || List.isPrefixOf "API ERROR:".data s

/-- A behaviour of the collaborators on which the answer-formatting completion
call succeeds with the empty string. -/
def fmtEmptyOracle : Oracles :=
  ⟨some "k".data, fun _ => Except.ok "SELECT 1".data,
    fun _ => Except.ok (["x".data], [[Value.intV 1]]), fun _ => Except.ok []⟩

/-- A behaviour where every completion call raises. -/
def failAllOracle : Oracles :=
  ⟨some "k".data, fun _ => Except.error "API down".data,
    fun _ => Except.error "boom".data, fun _ => Except.error "boom".data⟩

/-- A behaviour whose first SQL-generation call raises and whose second
succeeds; query execution returns one row and the formatting call succeeds. -/
def retryOnceOracle : Oracles :=
  ⟨some "k".data,
    fun i => if i == 0 then Except.error "Temporary API error".data
      else Except.ok "SELECT COUNT(*) AS total FROM dim_writer".data,
    fun _ => Except.ok (["total".data], [[Value.intV 5]]),
    fun _ => Except.ok "There are 5 writers.".data⟩

/-- A behaviour reaching the formatting stage whose formatting call raises. -/
def fmtFailOracle : Oracles :=
  ⟨some "k".data, fun _ => Except.ok "SELECT total FROM t".data,
    fun _ => Except.ok (["total".data], [[Value.floatV (mkRat 464475 100)]]),
    fun _ => Except.error "API rate limit exceeded".data⟩

/-! ## Helper lemmas -/

theorem mem_pyStrip {c : Char} {l : Str} (h : c ∈ pyStrip l) : c ∈ l :=
  (List.dropWhile_suffix pyIsSpace).subset
    ((List.rdropWhile_prefix pyIsSpace (lstripWS l)).subset h)

theorem head?_take {α : Type} {n : Nat} {l : List α} {c : α}
    (h : (l.take n).head? = some c) : l.head? = some c := by
  cases n <;> cases l <;> simp_all

theorem head?_pyStrip {c : Char} {l : Str} (h : (pyStrip l).head? = some c) :
    pyIsSpace c = false := by
  unfold pyStrip rstripBy at h
  obtain ⟨t, ht⟩ := List.rdropWhile_prefix pyIsSpace (lstripWS l)
  have hl : (lstripWS l).head? = some c := by
    rw [← ht]
    cases hrd : List.rdropWhile pyIsSpace (lstripWS l) with
    | nil => rw [hrd] at h; simp at h
    | cons a t2 => rw [hrd] at h; simp at h; simpa using h
  unfold lstripWS at hl
  have hne : l.dropWhile pyIsSpace ≠ [] := by
    intro hnil; rw [hnil] at hl; simp at hl
  have hhd : (l.dropWhile pyIsSpace).head hne = c := by
    have := List.head?_eq_head hne
    rw [this] at hl
    exact Option.some.inj hl
  have := List.head_dropWhile_not pyIsSpace l hne
  rwa [hhd] at this

theorem getLast?_pyStrip {c : Char} {l : Str} (h : (pyStrip l).getLast? = some c) :
    pyIsSpace c = false := by
  unfold pyStrip rstripBy at h
  have hne : List.rdropWhile pyIsSpace (lstripWS l) ≠ [] := by
    intro hnil; rw [hnil] at h; simp at h
  have hlast : (List.rdropWhile pyIsSpace (lstripWS l)).getLast hne = c := by
    have := List.getLast?_eq_getLast _ hne
    rw [this] at h
    exact Option.some.inj h
  have := List.rdropWhile_last_not pyIsSpace (lstripWS l) hne
  rw [hlast] at this
  simpa using this

theorem keepChar_control {c : Char} (hk : keepChar c = true) (hc : isAsciiControl c = true) :
    c = '\t' ∨ c = '\n' ∨ c = '\r' := by
  have hn : c.toNat = 9 ∨ c.toNat = 10 ∨ c.toNat = 13 := by
    simp only [keepChar, isAsciiControl, Bool.or_eq_true, Bool.not_eq_true',
      Bool.or_eq_false_iff, decide_eq_false_iff_not, Nat.not_le, beq_eq_false_iff_ne,
      ne_eq, Bool.and_eq_false_iff, decide_eq_true_eq, beq_iff_eq] at hk hc
    omega
  have heq : ∀ n : Nat, c.toNat = n → ∀ d : Char, d.toNat = n → c = d := by
    intro n h1 d h2
    apply Char.ext
    apply UInt32.ext
    simp only [Char.toNat] at h1 h2
    omega
  rcases hn with h | h | h
  · exact Or.inl (heq _ h '\t' (by decide))
  · exact Or.inr (Or.inl (heq _ h '\n' (by decide)))
  · exact Or.inr (Or.inr (heq _ h '\r' (by decide)))

/-! ## C1: the validator's safe verdict -/

/-- C1 (counterexample): `validate_sql` accepts `"SELECTED 1"` with reason
`"OK"` although its comment-stripped text does not begin with the token
`SELECT` (the source tests only the string prefix); and a query with content
after a semicolon can be reported with a keyword reason rather than the
multiple-statements reason. -/
theorem validate_sql_token_cex :
    (validate_sql "SELECTED 1".data = (true, "OK".data) ∧
      specBeginsWithTokenSelect (cleanedSql "SELECTED 1".data) = false) ∧
    (validate_sql "SELECT 1; DROP TABLE t".data = (false, keywordMsg "DROP".data) ∧
      keywordMsg "DROP".data ≠ "Blocked: Multiple SQL statements are not allowed.".data) := by
  constructor
  · constructor
    · decide
    · decide
  · constructor
    · decide
    · decide

/-- C1 (amended): `validate_sql` returns safe with reason `"OK"` exactly when
the comment-stripped, whitespace-trimmed text begins with `SELECT` as a
character prefix (case-insensitive), contains no blocked keyword as a whole
word, and contains no semicolon followed (possibly after whitespace) by a
non-whitespace character. -/
theorem validate_sql_safe_iff (sql : Str) :
    validate_sql sql = (true, "OK".data) ↔
      startsWithSelect (cleanedSql sql) = true ∧
      (∀ kw ∈ blockedKeywords, containsWordCI kw (cleanedSql sql) = false) ∧
      hasStmtAfterSemi (cleanedSql sql) = false := by
  unfold validate_sql
  cases hsel : startsWithSelect (cleanedSql sql)
  · simp [hsel]
  · cases hf : blockedKeywords.find? (fun kw => containsWordCI kw (cleanedSql sql)) with
    | none =>
      have hall : ∀ kw ∈ blockedKeywords, containsWordCI kw (cleanedSql sql) = false := by
        intro kw hkw
        simpa using (List.find?_eq_none.mp hf) kw hkw
      cases hsemi : hasStmtAfterSemi (cleanedSql sql)
      · exact iff_of_true rfl ⟨rfl, hall, rfl⟩
      · apply iff_of_false
        · simp
        · rintro ⟨-, -, h3⟩
          exact absurd h3 (by simp)
    | some kw =>
      have hp := List.find?_some hf
      have hm := List.mem_of_find?_eq_some hf
      apply iff_of_false
      · simp
      · rintro ⟨-, hall, -⟩
        have hfalse := hall kw hm
        rw [hp] at hfalse
        exact absurd hfalse (by simp)

/-! ## C2: the blocklist -/

/-- C2 (confirmed): whenever the comment-stripped text starts with `SELECT`
and contains a blocked keyword as a whole word (case-insensitive, outside of
comments since the text is comment-stripped), `validate_sql` is unsafe and its
reason names an offending blocked keyword (the first of the fixed list that
matches); and `SELECT updated_at FROM t` is safe, so a keyword occurring only
inside a longer identifier does not trigger. -/
theorem validate_sql_blocklist :
    (∀ (sql kw : Str), kw ∈ blockedKeywords →
      startsWithSelect (cleanedSql sql) = true →
      containsWordCI kw (cleanedSql sql) = true →
      (validate_sql sql).1 = false ∧
      ∃ k ∈ blockedKeywords, containsWordCI k (cleanedSql sql) = true ∧
        (validate_sql sql).2 = keywordMsg k) ∧
    validate_sql "SELECT updated_at FROM t".data = (true, "OK".data) := by
  constructor
  · intro sql kw hkw hsel hocc
    unfold validate_sql
    cases hf : blockedKeywords.find? (fun k => containsWordCI k (cleanedSql sql)) with
    | none =>
      rw [List.find?_eq_none] at hf
      exact absurd hocc (by simpa using hf kw hkw)
    | some k =>
      have hp := List.find?_some hf
      have hm := List.mem_of_find?_eq_some hf
      rw [hsel]
      exact ⟨rfl, k, hm, by simpa using hp, rfl⟩
  · decide

/-- C2 (witness): at the concrete query `SELECT a, delete FROM t`, the
hypotheses hold for the keyword `DELETE` and the validator rejects with the
keyword reason. -/
theorem validate_sql_blocklist_witness :
    ("DELETE".data ∈ blockedKeywords ∧
      startsWithSelect (cleanedSql "SELECT a, delete FROM t".data) = true ∧
      containsWordCI "DELETE".data (cleanedSql "SELECT a, delete FROM t".data) = true) ∧
    ((validate_sql "SELECT a, delete FROM t".data).1 = false ∧
      ∃ k ∈ blockedKeywords,
        containsWordCI k (cleanedSql "SELECT a, delete FROM t".data) = true ∧
        (validate_sql "SELECT a, delete FROM t".data).2 = keywordMsg k) :=
  ⟨⟨by decide, by decide, by decide⟩,
    validate_sql_blocklist.1 "SELECT a, delete FROM t".data "DELETE".data
      (by decide) (by decide) (by decide)⟩

/-! ## C3: sanitisation invariants -/

set_option maxRecDepth 8000 in
/-- C3 (counterexample): the carriage return `0x0D` is an ASCII control
character distinct from newline and tab that survives `sanitize_input`; and
when truncation occurs the result can end in whitespace, because the source
strips before truncating. -/
theorem sanitize_input_cex :
    (sanitize_input "a\rb".data = ['a', '\r', 'b'] ∧
      isAsciiControl '\r' = true ∧ '\r' ≠ '\n' ∧ '\r' ≠ '\t') ∧
    (sanitize_input (List.replicate 499 'a' ++ " b".data)
        = List.replicate 499 'a' ++ [' '] ∧
      (List.replicate 499 'a' ++ [' ']).getLast? = some ' ' ∧
      pyIsSpace ' ' = true) := by
  refine ⟨⟨by decide, by decide, by decide, by decide⟩, ⟨by decide, by decide, by decide⟩⟩

/-- C3 (amended): the output of `sanitize_input` has length at most the
configured maximum (500), contains no ASCII control characters other than
newline, tab and carriage return, never starts with whitespace, and — as long
as no truncation occurred — does not end with whitespace either; empty input
yields the empty string. -/
theorem sanitize_input_invariants (q : Str) :
    (sanitize_input q).length ≤ MAX_QUESTION_LENGTH ∧
    (∀ c ∈ sanitize_input q, isAsciiControl c = true → c = '\t' ∨ c = '\n' ∨ c = '\r') ∧
    (∀ c, (sanitize_input q).head? = some c → pyIsSpace c = false) ∧
    ((pyStrip (q.filter keepChar)).length ≤ MAX_QUESTION_LENGTH →
      ∀ c, (sanitize_input q).getLast? = some c → pyIsSpace c = false) ∧
    sanitize_input [] = [] := by
  refine ⟨?_, ?_, ?_, ?_, by decide⟩
  · simp [sanitize_input]
  · intro c hc hctrl
    have hmem : c ∈ q.filter keepChar := mem_pyStrip (List.mem_of_mem_take hc)
    exact keepChar_control (List.mem_filter.mp hmem).2 hctrl
  · intro c hc
    exact head?_pyStrip (head?_take hc)
  · intro hlen c hc
    unfold sanitize_input at hc
    rw [List.take_of_length_le hlen] at hc
    exact getLast?_pyStrip hc

/-- C3 (witness): the amended invariants evaluated at the concrete input
`"  hi  "`, whose sanitised form is `"hi"`. -/
theorem sanitize_input_invariants_witness :
    (sanitize_input "  hi  ".data).length ≤ MAX_QUESTION_LENGTH ∧
    pyIsSpace 'h' = false ∧ pyIsSpace 'i' = false :=
  ⟨(sanitize_input_invariants "  hi  ".data).1,
    (sanitize_input_invariants "  hi  ".data).2.2.1 'h' (by decide),
    (sanitize_input_invariants "  hi  ".data).2.2.2.1 (by decide) 'i' (by decide)⟩

/-! ## C7, C8: LIMIT enforcement -/

theorem getLast?_rstripBy {p : Char → Bool} {c : Char} {l : Str}
    (h : (rstripBy p l).getLast? = some c) : p c = false := by
  unfold rstripBy at h
  have hne : List.rdropWhile p l ≠ [] := by
    intro hnil; rw [hnil] at h; simp at h
  have hlast : (List.rdropWhile p l).getLast hne = c := by
    have := List.getLast?_eq_getLast _ hne
    rw [this] at h
    exact Option.some.inj h
  have := List.rdropWhile_last_not p l hne
  rw [hlast] at this
  simpa using this

theorem toDigitsCore_digit :
    ∀ (fuel n : Nat) (ds : Str), (∀ c ∈ ds, c.isDigit = true) →
      ∀ c ∈ Nat.toDigitsCore 10 fuel n ds, c.isDigit = true := by
  intro fuel
  induction fuel with
  | zero =>
    intro n ds hds c hc
    simp only [Nat.toDigitsCore] at hc
    exact hds c hc
  | succ fuel ih =>
    intro n ds hds c hc
    have hd : (Nat.digitChar (n % 10)).isDigit = true := by
      have hlt : n % 10 < 10 := Nat.mod_lt _ (by omega)
      have hfin : ∀ m : Fin 10, (Nat.digitChar m.val).isDigit = true := by decide
      exact hfin ⟨n % 10, hlt⟩
    have hcons : ∀ x ∈ Nat.digitChar (n % 10) :: ds, x.isDigit = true := by
      intro x hx
      rcases List.mem_cons.mp hx with h | h
      · rw [h]; exact hd
      · exact hds x h
    simp only [Nat.toDigitsCore] at hc
    split at hc
    · exact hcons c hc
    · exact ih _ _ hcons c hc

theorem natToStr_digit (n : Nat) : ∀ c ∈ natToStr n, c.isDigit = true :=
  toDigitsCore_digit (n + 1) n [] (by simp)

theorem toDigitsCore_ne_nil :
    ∀ (fuel n : Nat) (ds : Str), ds ≠ [] → Nat.toDigitsCore 10 fuel n ds ≠ [] := by
  intro fuel
  induction fuel with
  | zero =>
    intro n ds hds
    simpa [Nat.toDigitsCore] using hds
  | succ fuel ih =>
    intro n ds hds
    simp only [Nat.toDigitsCore]
    split
    · simp
    · exact ih _ _ (by simp)

theorem natToStr_ne_nil (n : Nat) : natToStr n ≠ [] := by
  unfold natToStr Nat.toDigits
  simp only [Nat.toDigitsCore]
  split
  · simp
  · exact toDigitsCore_ne_nil _ _ _ (by simp)

theorem matchWordAt_limit_append (t d : Str) :
    matchWordAt "limit".data
      (t ++ (' ' :: 'L' :: 'I' :: 'M' :: 'I' :: 'T' :: ' ' :: d)) (t.length + 1) = true := by
  unfold matchWordAt
  have hdrop : (t ++ (' ' :: 'L' :: 'I' :: 'M' :: 'I' :: 'T' :: ' ' :: d)).drop (t.length + 1)
      = 'L' :: 'I' :: 'M' :: 'I' :: 'T' :: ' ' :: d := by
    rw [← List.drop_drop, List.drop_left]
    rfl
  have hbefore : (t ++ (' ' :: 'L' :: 'I' :: 'M' :: 'I' :: 'T' :: ' ' :: d))[t.length + 1 - 1]?
      = some ' ' := by
    rw [Nat.add_sub_cancel, List.getElem?_append_right (Nat.le_refl _), Nat.sub_self]
    rfl
  have hafter : (t ++ (' ' :: 'L' :: 'I' :: 'M' :: 'I' :: 'T' :: ' ' :: d))[t.length + 1 + "limit".data.length]?
      = some ' ' := by
    rw [List.getElem?_append_right (by simp; omega)]
    have : t.length + 1 + "limit".data.length - t.length = 6 := by simp; omega
    rw [this]
    simp
  rw [hdrop, hbefore, hafter]
  simp [isWordCharOpt, isWordChar]

theorem containsWordCI_limit_append (t d : Str) :
    containsWordCI "LIMIT".data
      (t ++ (' ' :: 'L' :: 'I' :: 'M' :: 'I' :: 'T' :: ' ' :: d)) = true := by
  unfold containsWordCI
  rw [List.any_eq_true]
  refine ⟨t.length + 1, ?_, ?_⟩
  · rw [List.mem_range, List.length_append]
    simp
  · have hmap : "LIMIT".data.map Char.toLower = "limit".data := by decide
    rw [hmap]
    exact matchWordAt_limit_append t d

/-- C7 (confirmed): if the query contains `LIMIT` as a whole word
(case-insensitive) anywhere, `enforce_limit` returns it completely unchanged;
and `enforce_limit` is idempotent on every input. -/
theorem enforce_limit_unchanged_idem :
    (∀ (s : Str) (n : Nat), containsWordCI "LIMIT".data s = true → enforce_limit s n = s) ∧
    (∀ (s : Str) (n : Nat), enforce_limit (enforce_limit s n) n = enforce_limit s n) := by
  have h1 : ∀ (s : Str) (n : Nat), containsWordCI "LIMIT".data s = true → enforce_limit s n = s := by
    intro s n h
    unfold enforce_limit
    rw [h]
    simp
  refine ⟨h1, fun s n => ?_⟩
  cases h : containsWordCI "LIMIT".data s with
  | true =>
    rw [h1 s n h]
    exact h1 s n h
  | false =>
    have heq : enforce_limit s n
        = rstripBy (· == ';') (rstripBy pyIsSpace s) ++ " LIMIT ".data ++ natToStr n := by
      unfold enforce_limit
      rw [h]
      simp
    rw [heq]
    apply h1
    rw [List.append_assoc]
    exact containsWordCI_limit_append (rstripBy (· == ';') (rstripBy pyIsSpace s)) (natToStr n)

/-- C7 (witness): a query with an explicit lowercase `limit 5` is returned
unchanged. -/
theorem enforce_limit_unchanged_witness :
    containsWordCI "LIMIT".data "SELECT * FROM dim_writer limit 5".data = true ∧
    enforce_limit "SELECT * FROM dim_writer limit 5".data 100
      = "SELECT * FROM dim_writer limit 5".data :=
  ⟨by decide,
    enforce_limit_unchanged_idem.1 "SELECT * FROM dim_writer limit 5".data 100 (by decide)⟩

/-- C8 (counterexample): `enforce_limit` strips all trailing semicolons, not a
single one — on `"SELECT * FROM t;;"` it yields `"SELECT * FROM t LIMIT 50"`,
not `"SELECT * FROM t; LIMIT 50"`; and a double semicolon in the interior of
the query survives into the result. -/
theorem enforce_limit_cex :
    (enforce_limit "SELECT * FROM t;;".data 50 = "SELECT * FROM t LIMIT 50".data ∧
      "SELECT * FROM t LIMIT 50".data ≠ "SELECT * FROM t; LIMIT 50".data) ∧
    containsSubstring ";;".data (enforce_limit "SELECT a;;b FROM t".data 50) = true := by
  exact ⟨⟨by decide, by decide⟩, by decide⟩

/-- C8 (amended): on a query without a whole-word `LIMIT`, `enforce_limit`
strips trailing whitespace and then trailing semicolons (all of them) and
appends ` LIMIT {maxRows}`; the appended text contains no semicolon, the kept
prefix no longer ends in one, the result ends in a digit (hence in no trailing
semicolon), and the spec's example `enforce_limit("SELECT * FROM t;", 50)`
contains `LIMIT 50` and no double semicolon. -/
theorem enforce_limit_append_spec (s : Str) (n : Nat)
    (h : containsWordCI "LIMIT".data s = false) :
    enforce_limit s n
        = rstripBy (· == ';') (rstripBy pyIsSpace s) ++ " LIMIT ".data ++ natToStr n ∧
    (∀ c ∈ " LIMIT ".data ++ natToStr n, c ≠ ';') ∧
    (∀ c, (rstripBy (· == ';') (rstripBy pyIsSpace s)).getLast? = some c → c ≠ ';') ∧
    (∀ c, (enforce_limit s n).getLast? = some c → c.isDigit = true) ∧
    (containsSubstring "LIMIT 50".data (enforce_limit "SELECT * FROM t;".data 50) = true ∧
      containsSubstring ";;".data (enforce_limit "SELECT * FROM t;".data 50) = false) := by
  have heq : enforce_limit s n
      = rstripBy (· == ';') (rstripBy pyIsSpace s) ++ " LIMIT ".data ++ natToStr n := by
    unfold enforce_limit
    rw [h]
    simp
  refine ⟨heq, ?_, ?_, ?_, by decide, by decide⟩
  · intro c hc heqc
    rcases List.mem_append.mp hc with hmem | hmem
    · rw [heqc] at hmem
      revert hmem
      decide
    · have := natToStr_digit n c hmem
      rw [heqc] at this
      revert this
      decide
  · intro c hc heqc
    have := getLast?_rstripBy hc
    rw [heqc] at this
    simp at this
  · intro c hc
    rw [heq, List.getLast?_append, List.getLast?_append] at hc
    have hne := natToStr_ne_nil n
    cases hd : (natToStr n).getLast? with
    | none =>
      rw [List.getLast?_eq_getLast _ hne] at hd
      simp at hd
    | some d =>
      rw [hd] at hc
      simp only [Option.or_some, Option.some.injEq] at hc
      subst hc
      exact natToStr_digit n d (List.mem_of_getLast?_eq_some hd)

/-- C8 (witness): the amended description evaluated at the concrete input
`"SELECT * FROM t;;"` with cap 50. -/
theorem enforce_limit_append_spec_witness :
    containsWordCI "LIMIT".data "SELECT * FROM t;;".data = false ∧
    enforce_limit "SELECT * FROM t;;".data 50
        = rstripBy (· == ';') (rstripBy pyIsSpace "SELECT * FROM t;;".data)
            ++ " LIMIT ".data ++ natToStr 50 :=
  ⟨by decide, (enforce_limit_append_spec "SELECT * FROM t;;".data 50 (by decide)).1⟩

/-! ## C9, C10: the deterministic formatter -/

/-- C9 (confirmed): `format_result_deterministic` yields the literal
`"No results found."` on the empty result set; a single row with a single
numeric column (integer or float alike) renders as `columnName: $value` in the
`$X,XXX.XX` currency format with thousands separators and two decimals
(`4644.75 ↦ total_revenue: $4,644.75`, integer `5 ↦ count: $5.00`), and a
single non-numeric scalar renders as `columnName: value` without currency
formatting. -/
theorem format_single_value (q k : Str) (n : Int) (x : ℚ) (s : Str) :
    format_result_deterministic q [] = "No results found.".data ∧
    format_result_deterministic q [[(k, Value.intV n)]]
      = k ++ ": $".data ++ formatCommas2 (numToRat (Value.intV n)) ∧
    format_result_deterministic q [[(k, Value.floatV x)]]
      = k ++ ": $".data ++ formatCommas2 x ∧
    format_result_deterministic q [[(k, Value.strV s)]] = k ++ ": ".data ++ s ∧
    format_result_deterministic q [[(k, Value.nullV)]] = k ++ ": ".data ++ "None".data ∧
    format_result_deterministic "q".data [[("total_revenue".data, Value.floatV (mkRat 464475 100))]]
      = "total_revenue: $4,644.75".data ∧
    format_result_deterministic "q".data [[("count".data, Value.intV 5)]] = "count: $5.00".data :=
  ⟨rfl, rfl, rfl, rfl, rfl, by decide, by decide⟩

/-- C10 (counterexample): in the multi-column/multi-row branch an integer
field does not get the currency treatment — it renders plainly, unlike what
the claim states for every numeric field. -/
theorem format_multirow_cex :
    format_result_deterministic "q".data
        [[("n".data, Value.intV 1234), ("m".data, Value.floatV (mkRat 5 2))]]
      = "n: 1234 | m: $2.50".data ∧
    "n: 1234 | m: $2.50".data ≠ "n: $1,234.00 | m: $2.50".data :=
  ⟨by decide, by decide⟩

/-- C10 (amended): for a result set with multiple rows, or a single row whose
column count is not one, `format_result_deterministic` renders one line per
row, joining the `column: value` fields of each row with ` | ` in the row's
order and the lines with newline (no trailing newline); a floating-point field
gets the `$X,XXX.XX` currency treatment, while integer and other non-float
fields render as plain `column: value`. -/
theorem format_multirow (q : Str) (rows : List Row)
    (hne : rows ≠ [])
    (hnot : (rows.length == 1 && (rows.headD []).length == 1) = false) :
    format_result_deterministic q rows = List.intercalate "\n".data (rows.map renderRow) ∧
    (∀ r : Row, renderRow r = List.intercalate " | ".data (r.map renderField)) ∧
    (∀ (k : Str) (x : ℚ), renderField (k, Value.floatV x) = k ++ ": $".data ++ formatCommas2 x) ∧
    (∀ (k : Str) (v : Value), isFloatValue v = false →
      renderField (k, v) = k ++ ": ".data ++ valuePlain v) := by
  refine ⟨?_, fun r => rfl, fun k x => rfl, ?_⟩
  · unfold format_result_deterministic
    rw [hnot]
    have : rows.isEmpty = false := by
      cases rows with
      | nil => exact absurd rfl hne
      | cons a t => rfl
    rw [this]
    simp
  · intro k v hv
    cases v with
    | intV n => rfl
    | floatV x => simp [isFloatValue] at hv
    | strV s => rfl
    | nullV => rfl

/-! ## C5: the retry loop -/

theorem askAfterGen_gen_fields (q : Str) (o : Oracles) (g : GenOutcome) (sql : Str) :
    (askAfterGen q o g sql).genCalls = g.calls ∧ (askAfterGen q o g sql).sleeps = g.sleeps := by
  unfold askAfterGen
  split
  · exact ⟨rfl, rfl⟩
  · split
    · exact ⟨rfl, rfl⟩
    · split
      · exact ⟨rfl, rfl⟩
      · split
        · exact ⟨rfl, rfl⟩
        · exact ⟨rfl, rfl⟩

theorem genLoop_all_fail (g : Nat → Except Str Str) (maxR : Nat) :
    ∀ (d attempt : Nat) (le : Option Str),
      attempt + d = maxR →
      (∀ i, attempt ≤ i → i ≤ maxR → ∃ e, g i = Except.error e) →
      ∃ e, g maxR = Except.error e ∧
        genLoop g maxR attempt le (d + 1)
          = ⟨none, some e, (List.range d).map (fun k => backoffDelay (attempt + k)), d + 1⟩ := by
  intro d
  induction d with
  | zero =>
    intro attempt le hsum hfail
    have hattempt : attempt = maxR := by omega
    subst hattempt
    obtain ⟨e, he⟩ := hfail attempt (Nat.le_refl _) (Nat.le_refl _)
    refine ⟨e, he, ?_⟩
    simp [genLoop, he]
  | succ d ih =>
    intro attempt le hsum hfail
    have hlt : attempt < maxR := by omega
    obtain ⟨e, he⟩ := hfail attempt (Nat.le_refl _) (by omega)
    obtain ⟨e2, he2, heq⟩ := ih (attempt + 1) (some e) (by omega)
      (fun i h1 h2 => hfail i (by omega) h2)
    refine ⟨e2, he2, ?_⟩
    rw [genLoop, he]
    simp only [hlt, if_true, heq]
    refine congrArg (GenOutcome.mk none (some e2) · (d + 1 + 1)) ?_
    rw [List.range_succ_eq_map, List.map_cons, List.map_map]
    refine congrArg₂ List.cons (by simp) ?_
    apply List.map_congr_left
    intro a _
    simp only [Function.comp_apply]
    exact congrArg backoffDelay (by omega)

theorem genLoop_first_ok (g : Nat → Except Str Str) (maxR : Nat) :
    ∀ (d attempt j : Nat) (c : Str) (le : Option Str),
      attempt + d = maxR →
      attempt ≤ j → j ≤ maxR →
      (∀ i, attempt ≤ i → i < j → ∃ e, g i = Except.error e) →
      g j = Except.ok c →
      ∃ le2, genLoop g maxR attempt le (d + 1)
        = ⟨some (pyStrip c), le2,
            (List.range (j - attempt)).map (fun k => backoffDelay (attempt + k)),
            j - attempt + 1⟩ := by
  intro d
  induction d with
  | zero =>
    intro attempt j c le hsum hle hj hfail hok
    have hattempt : attempt = maxR := by omega
    have hjeq : j = attempt := by omega
    subst hjeq
    refine ⟨le, ?_⟩
    rw [genLoop, hok]
    simp
  | succ d ih =>
    intro attempt j c le hsum hle hj hfail hok
    rcases Nat.eq_or_lt_of_le hle with hjeq | hjlt
    · subst hjeq
      refine ⟨le, ?_⟩
      rw [genLoop, hok]
      simp
    · have hlt : attempt < maxR := by omega
      obtain ⟨e, he⟩ := hfail attempt (Nat.le_refl _) hjlt
      obtain ⟨le2, heq⟩ := ih (attempt + 1) j c (some e) (by omega) (by omega) hj
        (fun i h1 h2 => hfail i (by omega) h2) hok
      refine ⟨le2, ?_⟩
      rw [genLoop, he]
      simp only [hlt, if_true, heq]
      have hcalls : j - (attempt + 1) + 1 + 1 = j - attempt + 1 := by omega
      rw [hcalls]
      refine congrArg (GenOutcome.mk (some (pyStrip c)) le2 · (j - attempt + 1)) ?_
      have hrange : j - attempt = (j - (attempt + 1)) + 1 := by omega
      rw [hrange, List.range_succ_eq_map, List.map_cons, List.map_map]
      refine congrArg₂ List.cons (by simp) ?_
      apply List.map_congr_left
      intro a _
      simp only [Function.comp_apply]
      exact congrArg backoffDelay (by omega)

/-- C5 (confirmed): with the question and credential in place, if every
SQL-generation call raises then `ask_database` makes exactly `max_retries + 1`
generation attempts, sleeps between consecutive attempts with delays
`INITIAL_BACKOFF_SECONDS * 2 ^ attempt`, and returns
`API ERROR: Could not generate SQL after {attempts} attempts: {lastError}`
with `{attempts} = max_retries + 1` and `{lastError}` the error of the last
attempt; and if the first success is attempt `j`, exactly `j + 1` attempts and
the first `j` sleeps occur. -/
theorem ask_database_retry_schedule (question : Str) (o : Oracles) (maxR : Nat)
    (key : Str)
    (hq : (sanitize_input question).isEmpty = false)
    (hkey : o.apiKey = some key) (hkeyne : key.isEmpty = false) :
    ((∀ i, i ≤ maxR → ∃ e, o.gen i = Except.error e) →
      (ask_database question o maxR).genCalls = maxR + 1 ∧
      (ask_database question o maxR).sleeps = (List.range maxR).map backoffDelay ∧
      ∃ e, o.gen maxR = Except.error e ∧
        (ask_database question o maxR).answer
          = "API ERROR: Could not generate SQL after ".data ++ natToStr (maxR + 1)
              ++ " attempts: ".data ++ e) ∧
    (∀ j c, j ≤ maxR → (∀ i, i < j → ∃ e, o.gen i = Except.error e) →
      o.gen j = Except.ok c →
      (ask_database question o maxR).genCalls = j + 1 ∧
      (ask_database question o maxR).sleeps = (List.range j).map backoffDelay) := by
  constructor
  · intro hfail
    obtain ⟨e, he, heq⟩ := genLoop_all_fail o.gen maxR maxR 0 none (by omega)
      (fun i h1 h2 => hfail i h2)
    have hmap : (List.range maxR).map (fun k => backoffDelay (0 + k))
        = (List.range maxR).map backoffDelay := by
      apply List.map_congr_left
      intro a _
      simp
    rw [hmap] at heq
    refine ⟨?_, ?_, e, he, ?_⟩ <;>
      · unfold ask_database
        simp only [hq, hkey, hkeyne, heq, Bool.false_eq_true, if_false]
        try simp
  · intro j c hj hfail hok
    obtain ⟨le2, heq⟩ := genLoop_first_ok o.gen maxR maxR 0 j c none (by omega)
      (by omega) hj (fun i h1 h2 => hfail i h2) hok
    have hmap : (List.range j).map (fun k => backoffDelay (0 + k))
        = (List.range j).map backoffDelay := by
      apply List.map_congr_left
      intro a _
      simp
    rw [Nat.sub_zero, hmap] at heq
    constructor <;>
      · unfold ask_database
        simp only [hq, hkey, hkeyne, heq, Bool.false_eq_true, if_false]
        rcases askAfterGen_gen_fields (sanitize_input question) o
          ⟨some (pyStrip c), le2, (List.range j).map backoffDelay, j + 1⟩
          (cleanSqlResponse (pyStrip c)) with ⟨h1, h2⟩
        simp only [h1, h2]

/-- C5 (witness): with a behaviour whose calls all raise and
`max_retries = 1`, `ask_database` makes 2 attempts, sleeps once with the
initial backoff, and returns the API ERROR message; with a behaviour whose
first call raises and whose second succeeds, it makes 2 attempts and sleeps
exactly once. -/
theorem ask_database_retry_schedule_witness :
    ((ask_database "anything".data failAllOracle 1).genCalls = 1 + 1 ∧
      (ask_database "anything".data failAllOracle 1).sleeps = (List.range 1).map backoffDelay ∧
      ∃ e, failAllOracle.gen 1 = Except.error e ∧
        (ask_database "anything".data failAllOracle 1).answer
          = "API ERROR: Could not generate SQL after ".data ++ natToStr (1 + 1)
              ++ " attempts: ".data ++ e) ∧
    ((ask_database "How many writers?".data retryOnceOracle 2).genCalls = 1 + 1 ∧
      (ask_database "How many writers?".data retryOnceOracle 2).sleeps
        = (List.range 1).map backoffDelay) :=
  ⟨(ask_database_retry_schedule "anything".data failAllOracle 1 "k".data
      (by decide) rfl (by decide)).1
      (fun i _ => ⟨"API down".data, rfl⟩),
    (ask_database_retry_schedule "How many writers?".data retryOnceOracle 2 "k".data
      (by decide) rfl (by decide)).2 1
      "SELECT COUNT(*) AS total FROM dim_writer".data (by decide)
      (fun i hi => ⟨"Temporary API error".data, by
        interval_cases i
        rfl⟩)
      rfl⟩

/-! ## C6: deterministic fallback for answer formatting -/

theorem ask_database_fmt_invariance (question : Str) (o : Oracles) (maxR : Nat)
    (f2 : Nat → Except Str Str) (h : f2 0 = o.fmtAnswer 0) :
    ask_database question ⟨o.apiKey, o.gen, o.runQuery, f2⟩ maxR
      = ask_database question o maxR := by
  unfold ask_database askAfterGen
  simp only [h]

/-- C6 (confirmed): when the pipeline reaches a non-empty result set and the
single answer-formatting completion call fails, `ask_database` returns exactly
the deterministic answer `format_result_deterministic`, which was computed
before (and regardless of) the formatting call; the formatting call is made
exactly once and is never retried — the result does not depend on the
formatting behaviour at any later call index. -/
theorem ask_database_det_fallback (question : Str) (o : Oracles) (maxR : Nat)
    (key raw err : Str) (cols : List Str) (rows : List (List Value))
    (hq : (sanitize_input question).isEmpty = false)
    (hkey : o.apiKey = some key) (hkeyne : key.isEmpty = false)
    (hgen : (genLoop o.gen maxR 0 none (maxR + 1)).sqlText = some raw)
    (hsafe : (validate_sql (cleanSqlResponse raw)).1 = true)
    (hexec : o.runQuery (enforce_limit (cleanSqlResponse raw) MAX_RESULT_ROWS)
      = Except.ok (cols, rows))
    (hrows : rows.isEmpty = false)
    (hfmt : o.fmtAnswer 0 = Except.error err) :
    (ask_database question o maxR).answer
      = format_result_deterministic (sanitize_input question)
          (rows.map (fun r => cols.zip r)) ∧
    (ask_database question o maxR).detAnswer
      = some (format_result_deterministic (sanitize_input question)
          (rows.map (fun r => cols.zip r))) ∧
    (ask_database question o maxR).fmtCalls = 1 ∧
    (∀ f2 : Nat → Except Str Str, f2 0 = o.fmtAnswer 0 →
      ask_database question ⟨o.apiKey, o.gen, o.runQuery, f2⟩ maxR
        = ask_database question o maxR) := by
  have heval : ask_database question o maxR
      = ⟨format_result_deterministic (sanitize_input question)
            (rows.map (fun r => cols.zip r)),
          (genLoop o.gen maxR 0 none (maxR + 1)).sleeps,
          (genLoop o.gen maxR 0 none (maxR + 1)).calls, 1,
          some (format_result_deterministic (sanitize_input question)
            (rows.map (fun r => cols.zip r)))⟩ := by
    unfold ask_database askAfterGen
    simp only [hq, hkey, hkeyne, hgen, hsafe, hexec, hrows, hfmt, Bool.false_eq_true,
      Bool.not_true, if_false]
  exact ⟨by rw [heval], by rw [heval], by rw [heval],
    fun f2 h => ask_database_fmt_invariance question o maxR f2 h⟩

/-- C6 (witness): the fallback equalities at a concrete behaviour whose
formatting call raises, with total revenue 4644.75 in the single result row. -/
theorem ask_database_det_fallback_witness :
    (ask_database "Total revenue for Alex Park?".data fmtFailOracle 3).answer
      = format_result_deterministic (sanitize_input "Total revenue for Alex Park?".data)
          ([[Value.floatV (mkRat 464475 100)]].map
            (fun r => ["total".data].zip r)) ∧
    (ask_database "Total revenue for Alex Park?".data fmtFailOracle 3).answer
      = "total: $4,644.75".data :=
  ⟨(ask_database_det_fallback "Total revenue for Alex Park?".data fmtFailOracle 3
      "k".data "SELECT total FROM t".data "API rate limit exceeded".data
      ["total".data] [[Value.floatV (mkRat 464475 100)]]
      (by decide) rfl (by decide) rfl (by decide) rfl (by decide) rfl).1,
    by decide⟩

/-! ## C4: the answer's shape -/

theorem isPrefixOf_append {p a : Str} (h : List.isPrefixOf p a = true) (b : Str) :
    List.isPrefixOf p (a ++ b) = true := by
  rw [List.isPrefixOf_iff_prefix] at h ⊢
  exact h.trans (List.prefix_append a b)

theorem intercalate_cons_ne_nil (sep x : Str) (xs : List Str) (hx : x ≠ []) :
    List.intercalate sep (x :: xs) ≠ [] := by
  cases xs with
  | nil => simpa [List.intercalate] using hx
  | cons y ys =>
    simp only [List.intercalate, List.intersperse, List.flatten]
    simp [List.append_eq_nil]
    intro h
    exact absurd h hx

theorem format_det_ne_nil (q : Str) (rows : List Row) (hne : rows ≠ [])
    (hrowne : ∀ r ∈ rows, r ≠ []) : format_result_deterministic q rows ≠ [] := by
  unfold format_result_deterministic
  cases rows with
  | nil => exact absurd rfl hne
  | cons r0 rest =>
    simp only [List.isEmpty_cons, Bool.false_eq_true, if_false]
    split
    · split
      · simp [List.append_eq_nil]
      · simp [List.append_eq_nil]
    · rw [List.map_cons]
      apply intercalate_cons_ne_nil
      unfold renderRow
      have hr0 : r0 ≠ [] := hrowne r0 (List.mem_cons_self r0 rest)
      cases r0 with
      | nil => exact absurd rfl hr0
      | cons f fs =>
        rw [List.map_cons]
        apply intercalate_cons_ne_nil
        rcases f with ⟨k, v⟩
        cases v <;> simp [renderField, List.append_eq_nil]

/-- C4 (counterexample): when the formatting completion call succeeds with the
empty string, `ask_database` returns the empty string — an answer that is
neither non-empty nor error-tagged. -/
theorem ask_database_empty_answer_cex :
    (ask_database "hi".data fmtEmptyOracle 3).answer = [] ∧
    errTagged [] = false := by
  exact ⟨by decide, by decide⟩

/-- C4 (amended): for every question, every well-formed data-connection
behaviour (successful executions return at least one column and full rows)
and every completion behaviour, `ask_database` returns (it is a total
function, never raising) either the stripped text of a successful
answer-formatting call — which may be any string, including the empty one —
or a non-empty string that is a tagged error string with one of the four
prefixes, the literal `No results found.`, or the deterministic data-derived
answer. -/
theorem ask_database_answer_shape (question : Str) (o : Oracles) (maxR : Nat)
    (hwf : ∀ sql cols rows, o.runQuery sql = Except.ok (cols, rows) →
      cols ≠ [] ∧ ∀ r ∈ rows, r.length = cols.length) :
    (∃ c, o.fmtAnswer 0 = Except.ok c ∧ (ask_database question o maxR).answer = pyStrip c) ∨
    ((ask_database question o maxR).answer ≠ [] ∧
      (errTagged (ask_database question o maxR).answer = true ∨
        (ask_database question o maxR).answer = "No results found.".data ∨
        ∃ rows2 : List Row, rows2 ≠ [] ∧
          (ask_database question o maxR).answer
            = format_result_deterministic (sanitize_input question) rows2)) := by
  cases hq : (sanitize_input question).isEmpty
  case true =>
    have heval : ask_database question o maxR
        = ⟨"ERROR: Empty question provided.".data, [], 0, 0, none⟩ := by
      unfold ask_database
      simp [hq]
    rw [heval]
    exact Or.inr ⟨by decide, Or.inl (by decide)⟩
  case false =>
  cases hkey : o.apiKey with
  | none =>
    have heval : ask_database question o maxR
        = ⟨"ERROR: OPENAI_API_KEY not set. Copy .env.example to .env and add your key.".data,
            [], 0, 0, none⟩ := by
      unfold ask_database
      simp [hq, hkey]
    rw [heval]
    exact Or.inr ⟨by decide, Or.inl (by decide)⟩
  | some key =>
  cases hkeyne : key.isEmpty
  case true =>
    have heval : ask_database question o maxR
        = ⟨"ERROR: OPENAI_API_KEY not set. Copy .env.example to .env and add your key.".data,
            [], 0, 0, none⟩ := by
      unfold ask_database
      simp [hq, hkey, hkeyne]
    rw [heval]
    exact Or.inr ⟨by decide, Or.inl (by decide)⟩
  case false =>
  cases hgen : (genLoop o.gen maxR 0 none (maxR + 1)).sqlText with
  | none =>
    have heval : (ask_database question o maxR).answer
        = "API ERROR: Could not generate SQL after ".data
            ++ (natToStr (maxR + 1) ++ (" attempts: ".data
              ++ (genLoop o.gen maxR 0 none (maxR + 1)).lastErr.getD [])) := by
      unfold ask_database
      simp only [hq, hkey, hkeyne, hgen, Bool.false_eq_true, if_false]
      simp [List.append_assoc]
    rw [heval]
    refine Or.inr ⟨by simp, Or.inl ?_⟩
    have hpre : List.isPrefixOf "API ERROR:".data
        "API ERROR: Could not generate SQL after ".data = true := by decide
    unfold errTagged
    rw [isPrefixOf_append hpre]
    simp
  | some raw =>
  have hreduce : ask_database question o maxR
      = askAfterGen (sanitize_input question) o
          (genLoop o.gen maxR 0 none (maxR + 1)) (cleanSqlResponse raw) := by
    unfold ask_database
    simp only [hq, hkey, hkeyne, hgen, Bool.false_eq_true, if_false]
  rw [hreduce]
  cases hsafe : (validate_sql (cleanSqlResponse raw)).1
  case false =>
    have heval : (askAfterGen (sanitize_input question) o
        (genLoop o.gen maxR 0 none (maxR + 1)) (cleanSqlResponse raw)).answer
        = "SAFETY ERROR: ".data ++ (validate_sql (cleanSqlResponse raw)).2 := by
      unfold askAfterGen
      simp [hsafe]
    rw [heval]
    refine Or.inr ⟨by simp, Or.inl ?_⟩
    have hpre : List.isPrefixOf "SAFETY ERROR:".data "SAFETY ERROR: ".data = true := by decide
    unfold errTagged
    rw [isPrefixOf_append hpre]
    simp
  case true =>
  cases hexec : o.runQuery (enforce_limit (cleanSqlResponse raw) MAX_RESULT_ROWS) with
  | error e =>
    have heval : (askAfterGen (sanitize_input question) o
        (genLoop o.gen maxR 0 none (maxR + 1)) (cleanSqlResponse raw)).answer
        = "SQL EXECUTION ERROR: ".data ++ e := by
      unfold askAfterGen
      simp [hsafe, hexec]
    rw [heval]
    refine Or.inr ⟨by simp, Or.inl ?_⟩
    have hpre : List.isPrefixOf "SQL EXECUTION ERROR:".data
        "SQL EXECUTION ERROR: ".data = true := by decide
    unfold errTagged
    rw [isPrefixOf_append hpre]
    simp
  | ok pr =>
  obtain ⟨cols, rows⟩ := pr
  obtain ⟨hcols, hlen⟩ := hwf _ _ _ hexec
  cases hrows : rows.isEmpty
  case true =>
    have heval : (askAfterGen (sanitize_input question) o
        (genLoop o.gen maxR 0 none (maxR + 1)) (cleanSqlResponse raw)).answer
        = "No results found.".data := by
      unfold askAfterGen
      simp [hsafe, hexec, hrows]
    rw [heval]
    exact Or.inr ⟨by decide, Or.inr (Or.inl rfl)⟩
  case false =>
  have hrowsne : rows ≠ [] := by
    cases rows with
    | nil => simp at hrows
    | cons a t => simp
  have hdata_ne : rows.map (fun r => cols.zip r) ≠ [] := by
    cases rows with
    | nil => exact absurd rfl hrowsne
    | cons a t => simp
  have hdata_rows : ∀ r2 ∈ rows.map (fun r => cols.zip r), r2 ≠ [] := by
    intro r2 hr2
    obtain ⟨r, hr, hzip⟩ := List.mem_map.mp hr2
    have hlr := hlen r hr
    have : r2.length = cols.length := by
      rw [← hzip, List.length_zip, hlr, Nat.min_self]
    intro hnil
    rw [hnil] at this
    simp at this
    exact absurd (List.length_eq_zero.mp this.symm) hcols
  cases hfmt : o.fmtAnswer 0 with
  | ok c =>
    refine Or.inl ⟨c, rfl, ?_⟩
    unfold askAfterGen
    simp [hsafe, hexec, hrows, hfmt]
  | error e =>
    have heval : (askAfterGen (sanitize_input question) o
        (genLoop o.gen maxR 0 none (maxR + 1)) (cleanSqlResponse raw)).answer
        = format_result_deterministic (sanitize_input question)
            (rows.map (fun r => cols.zip r)) := by
      unfold askAfterGen
      simp [hsafe, hexec, hrows, hfmt]
    rw [heval]
    exact Or.inr ⟨format_det_ne_nil _ _ hdata_ne hdata_rows,
      Or.inr (Or.inr ⟨rows.map (fun r => cols.zip r), hdata_ne, rfl⟩)⟩

/-- C4 (witness): the amended shape at the all-raising behaviour: well-formed
by vacuity, and the answer is the non-empty tagged `API ERROR:` string. -/
theorem ask_database_answer_shape_witness :
    ((∃ c, failAllOracle.fmtAnswer 0 = Except.ok c ∧
        (ask_database "hi".data failAllOracle 2).answer = pyStrip c) ∨
      ((ask_database "hi".data failAllOracle 2).answer ≠ [] ∧
        (errTagged (ask_database "hi".data failAllOracle 2).answer = true ∨
          (ask_database "hi".data failAllOracle 2).answer = "No results found.".data ∨
          ∃ rows2 : List Row, rows2 ≠ [] ∧
            (ask_database "hi".data failAllOracle 2).answer
              = format_result_deterministic (sanitize_input "hi".data) rows2))) :=
  ask_database_answer_shape "hi".data failAllOracle 2
    (fun sql cols rows h => by simp [failAllOracle] at h)

/-- C10 (witness): the amended rendering evaluated at a concrete two-column
single row with an integer and a float field. -/
theorem format_multirow_witness :
    ([[("n".data, Value.intV 1234), ("m".data, Value.floatV (mkRat 5 2))]] : List Row) ≠ [] ∧
    format_result_deterministic "q".data
        [[("n".data, Value.intV 1234), ("m".data, Value.floatV (mkRat 5 2))]]
      = List.intercalate "\n".data
          ([[("n".data, Value.intV 1234), ("m".data, Value.floatV (mkRat 5 2))]].map renderRow) :=
  ⟨by decide,
    (format_multirow "q".data
      [[("n".data, Value.intV 1234), ("m".data, Value.floatV (mkRat 5 2))]]
      (by decide) (by decide)).1⟩

end WCM
